import Mathlib

/-!
Verification of the authentication and token-lifecycle subsystem of the
codelock-vscode extension, shallowly embedded from
`src/auth/authManager.ts`.  The embedding covers the data model
(`AuthToken`), the dual-backend credential storage (`storeToken`,
`loadToken`, `clearToken` over keytar as primary and VS Code secret
storage as fallback), the token lifecycle (`getValidToken`,
`refreshToken`, `exchangeCodeForToken`, `isAuthenticated`), the
login/logout entry points, and the three-way race inside
`waitForAuthCallback` (redirect callback vs. user cancellation vs. the
5-minute timer), modelled as a step relation over an explicit wait
state.  Asynchronous failure of the collaborators (keytar, VS Code
secrets, the HTTP token endpoint, the revoke endpoint) is captured by a
`World` record of oracles; JavaScript exceptions are modelled with
`Except`/`Option`, and JavaScript string truthiness (empty string is
falsy) is modelled explicitly.
-/

namespace CodeLock

/-!
JSON string model.  `storeToken` persists `JSON.stringify(token)` and
`loadToken` applies `JSON.parse` to the stored string.  We model the
exact serialized shape `JSON.stringify` produces for the token object
literals built in `exchangeCodeForToken` / `refreshToken` (fields in
insertion order: accessToken, refreshToken, expiresAt, userId),
including JavaScript's escaping of the quote, the backslash and control
characters.  `parseTokenChars` models `JSON.parse` on that shape; on
strings outside the serializer's image where `JSON.parse` would throw
or yield a value without the token fields, it returns `none`.
-/

/-- Hexadecimal digit character (lowercase), as emitted by JSON.stringify
in its escape sequences for control characters. -/
def hexDigitChar (n : Nat) : Char :=
  if n < 10 then Char.ofNat (48 + n) else Char.ofNat (87 + n)

/-- Escaping of a single character inside a JSON string literal, exactly as
JSON.stringify does it: quote and backslash get a backslash escape, the
control characters 8, 9, 10, 12, 13 get their shorthand escapes, the other
characters below 32 get a lowercase 4-digit unicode escape, and every other
character is emitted verbatim. -/
def escChar (c : Char) : List Char :=
  if c = '"' then ['\\', '"']
  else if c = '\\' then ['\\', '\\']
  else if c = Char.ofNat 8 then ['\\', 'b']
  else if c = Char.ofNat 9 then ['\\', 't']
  else if c = Char.ofNat 10 then ['\\', 'n']
  else if c = Char.ofNat 12 then ['\\', 'f']
  else if c = Char.ofNat 13 then ['\\', 'r']
  else if c.toNat < 32 then
    ['\\', 'u', '0', '0', hexDigitChar (c.toNat / 16), hexDigitChar (c.toNat % 16)]
  else [c]

/-- Escaping of a whole string (as a character list). -/
def escList : List Char → List Char
  | [] => []
  | c :: cs => escChar c ++ escList cs

/-- Value of one hexadecimal digit character (accepting both cases, as
JSON.parse does). -/
def hexVal (c : Char) : Option Nat :=
  if 48 ≤ c.toNat ∧ c.toNat ≤ 57 then some (c.toNat - 48)
  else if 97 ≤ c.toNat ∧ c.toNat ≤ 102 then some (c.toNat - 87)
  else if 65 ≤ c.toNat ∧ c.toNat ≤ 70 then some (c.toNat - 55)
  else none

/-- Prepend a character to the first component of a parse result. -/
def consFst (c : Char) : Option (List Char × List Char) → Option (List Char × List Char) :=
  Option.map fun p => (c :: p.1, p.2)

/-- Value of a 4-digit hexadecimal escape body. -/
def hexQuad (h1 h2 h3 h4 : Char) : Option Nat :=
  match hexVal h1, hexVal h2, hexVal h3, hexVal h4 with
  | some a, some b, some c2, some d => some (4096 * a + 256 * b + 16 * c2 + d)
  | _, _, _, _ => none

/-- Reading of a JSON string body up to and including its closing quote,
undoing the escapes; returns the decoded content and the remaining input.
Models how JSON.parse reads a string literal. -/
def unescString : List Char → Option (List Char × List Char)
  | [] => none
  | c :: cs =>
    if c = '"' then some ([], cs)
    else if c = '\\' then
      match cs with
      | [] => none
      | e :: cs2 =>
        if e = '"' then consFst '"' (unescString cs2)
        else if e = '\\' then consFst '\\' (unescString cs2)
        else if e = '/' then consFst '/' (unescString cs2)
        else if e = 'b' then consFst (Char.ofNat 8) (unescString cs2)
        else if e = 't' then consFst (Char.ofNat 9) (unescString cs2)
        else if e = 'n' then consFst (Char.ofNat 10) (unescString cs2)
        else if e = 'f' then consFst (Char.ofNat 12) (unescString cs2)
        else if e = 'r' then consFst (Char.ofNat 13) (unescString cs2)
        else if e = 'u' then
          match cs2 with
          | h1 :: h2 :: h3 :: h4 :: cs3 =>
            match hexQuad h1 h2 h3 h4 with
            | some v => consFst (Char.ofNat v) (unescString cs3)
            | none => none
          | _ => none
        else none
    else consFst c (unescString cs)

/-- Decimal digit character. -/
def digitChar (d : Nat) : Char := Char.ofNat (48 + d)

/-- Fuel-driven production of the decimal digits of a natural number,
most significant first.  The fuel makes the definition structurally
recursive so that it evaluates by kernel reduction. -/
def natDigitsAux : Nat → Nat → List Char
  | 0, _ => []
  | fuel + 1, n =>
    if n < 10 then [digitChar n]
    else natDigitsAux fuel (n / 10) ++ [digitChar (n % 10)]

/-- Decimal digits of a natural number, as JavaScript prints an integer. -/
def natDigits (n : Nat) : List Char := natDigitsAux (n + 1) n

/-- Decision of whether a character is a decimal digit. -/
def isDigitC (c : Char) : Bool := decide (48 ≤ c.toNat ∧ c.toNat ≤ 57)

/-- Value of a digit string, most significant digit first. -/
def digitsVal : List Char → Nat → Nat
  | [], acc => acc
  | c :: cs, acc => digitsVal cs (acc * 10 + (c.toNat - 48))

/-- Reading of a nonnegative JSON integer literal: the maximal leading run
of digits, with the rest of the input returned.  This models JSON.parse on
the numbers our serializer emits. -/
def parseNatChars (cs : List Char) : Option (Nat × List Char) :=
  let ds := cs.takeWhile isDigitC
  if ds.isEmpty then none else some (digitsVal ds 0, cs.dropWhile isDigitC)

/-- Consume an expected literal sequence from the input. -/
def stripPre : List Char → List Char → Option (List Char)
  | [], cs => some cs
  | _ :: _, [] => none
  | p :: ps, c :: cs => if c = p then stripPre ps cs else none

/-- An OAuth token as held by the extension (`AuthToken` interface in
`authManager.ts`): access token, refresh token, absolute expiry in epoch
milliseconds, user id. -/
structure AuthToken where
  accessToken : String
  refreshToken : String
  expiresAt : Nat
  userId : String
deriving DecidableEq

/-- Literal opening of the serialized token object, through the opening
quote of the accessToken value. -/
def litA : List Char := "\x7b\"accessToken\":\"".data

/-- Literal between the accessToken value's closing quote and the opening
quote of the refreshToken value. -/
def litR : List Char := ",\"refreshToken\":\"".data

/-- Literal between the refreshToken value's closing quote and the digits
of expiresAt. -/
def litE : List Char := ",\"expiresAt\":".data

/-- Literal between the digits of expiresAt and the opening quote of the
userId value. -/
def litU : List Char := ',' :: "\"userId\":\"".data

/-- Literal closing brace after the userId value's closing quote. -/
def litEnd : List Char := "\x7d".data

/-- Serialized form of a token: the character list JSON.stringify produces
for the token object. -/
def serializeTokenChars (t : AuthToken) : List Char :=
  litA ++ escList t.accessToken.data
    ++ '"' :: litR ++ escList t.refreshToken.data
    ++ '"' :: litE ++ natDigits t.expiresAt
    ++ litU ++ escList t.userId.data
    ++ '"' :: litEnd

/-- Serialized form of a token, as a string. -/
def serializeToken (t : AuthToken) : String := String.mk (serializeTokenChars t)

/-- Reading a serialized token back, modelling JSON.parse on the shape the
serializer emits. -/
def parseTokenChars (cs0 : List Char) : Option AuthToken := do
  let cs1 ← stripPre litA cs0
  let (a, cs2) ← unescString cs1
  let cs3 ← stripPre litR cs2
  let (r, cs4) ← unescString cs3
  let cs5 ← stripPre litE cs4
  let (n, cs6) ← parseNatChars cs5
  let cs7 ← stripPre litU cs6
  let (u, cs8) ← unescString cs7
  if cs8 = litEnd then
    some { accessToken := String.mk a, refreshToken := String.mk r,
           expiresAt := n, userId := String.mk u }
  else none

/-- Reading a serialized token from a string. -/
def parseToken (s : String) : Option AuthToken := parseTokenChars s.data

/-!
Data model of the collaborators.  A `World` records, for one run of an
operation, how the external collaborators behave: whether each keytar
call (primary backend) and each VS Code secret-storage call (fallback
backend) succeeds or throws, what the token endpoint answers to a
refresh, whether the revoke endpoint call succeeds, and the current
time `Date.now()` in epoch milliseconds.  The mutable fields of the
`AuthManager` instance are an `AMState`: the in-memory token cache
`currentToken` and the two persisted values (the entry under the fixed
service/key pair in each backend).
-/

/-- Body of a successful refresh response from the token endpoint:
`access_token`, optional `refresh_token`, `expires_in` in seconds,
`user_id`. -/
structure RefreshResp where
  access_token : String
  refresh_token : Option String
  expires_in : Nat
  user_id : String
deriving DecidableEq

/-- Body of a successful code-exchange response from the token endpoint. -/
structure ExchangeResp where
  access_token : String
  refresh_token : String
  expires_in : Nat
  user_id : String
deriving DecidableEq

/-- Behaviour of the external collaborators during one operation.  A
`false` flag means the corresponding call throws; `refreshResult` is
`error` when the refresh fetch rejects or returns non-2xx. -/
structure World where
  now : Nat
  primWriteOk : Bool
  fallWriteOk : Bool
  primReadOk : Bool
  fallReadOk : Bool
  primDeleteOk : Bool
  fallDeleteOk : Bool
  revokeOk : Bool
  refreshResult : Except Unit RefreshResp

/-- Mutable state of the `AuthManager` instance plus the two storage
backends: in-memory cache, serialized value in the primary (keytar)
store, serialized value in the fallback (VS Code secrets) store. -/
structure AMState where
  currentToken : Option AuthToken
  primStore : Option String
  fallStore : Option String
deriving DecidableEq

/-- JavaScript truthiness of an optional string: `null`/`undefined` and
the empty string are falsy. -/
def truthyOpt : Option String → Bool
  | none => false
  | some s => decide (s ≠ "")

/-- Embedding of `storeToken`: try `keytar.setPassword` with the
serialized token; if that throws, fall back to
`context.secrets.store`.  A failure of the fallback write propagates
(as `error`). -/
def storeTokenE (w : World) (t : AuthToken) (s : AMState) : Except Unit AMState :=
  if w.primWriteOk then Except.ok { s with primStore := some (serializeToken t) }
  else if w.fallWriteOk then Except.ok { s with fallStore := some (serializeToken t) }
  else Except.error ()

/-- State after `storeToken` when it succeeds, unchanged state when it
throws (used to phrase store-then-load statements). -/
def storeRes (w : World) (t : AuthToken) (s : AMState) : AMState :=
  match storeTokenE w t s with
  | Except.ok s1 => s1
  | Except.error _ => s

/-- Fallback half of `loadToken`: read `context.secrets.get`; a throw is
caught by the surrounding try/catch of `loadToken` and yields `null`, a
falsy value yields `null`, otherwise the value is parsed. -/
def loadFallback (w : World) (s : AMState) : Option AuthToken :=
  if w.fallReadOk then
    match s.fallStore with
    | some str => if str = "" then none else parseToken str
    | none => none
  else none

/-- Embedding of `loadToken`.  The single try/catch in the source wraps
both reads: a throwing primary read (`keytar.getPassword`) jumps to the
catch and returns `null` without consulting the fallback; only a primary
read that succeeds with a falsy value falls through to the fallback
read. -/
def loadToken (w : World) (s : AMState) : Option AuthToken :=
  if w.primReadOk then
    match s.primStore with
    | some str => if str = "" then loadFallback w s else parseToken str
    | none => loadFallback w s
  else none

/-- Embedding of `clearToken`: attempt `keytar.deletePassword` and
`context.secrets.delete`, each in its own try/catch, so a failing delete
leaves that backend's value in place, is swallowed, and does not prevent
the other delete. -/
def clearToken (w : World) (s : AMState) : AMState :=
  { s with
    primStore := if w.primDeleteOk then none else s.primStore,
    fallStore := if w.fallDeleteOk then none else s.fallStore }

/-- Token built by `exchangeCodeForToken` from a successful exchange
response: `expiresAt` is `Date.now() + expires_in * 1000` and the
response's `refresh_token` is taken as is. -/
def tokenFromExchange (now : Nat) (d : ExchangeResp) : AuthToken :=
  { accessToken := d.access_token
    refreshToken := d.refresh_token
    expiresAt := now + d.expires_in * 1000
    userId := d.user_id }

/-- Token built by `refreshToken` from a successful refresh response:
`data.refresh_token || refreshToken` keeps the old refresh token when
the response omits the field or carries a falsy (empty) value. -/
def tokenFromRefresh (now : Nat) (oldRT : String) (r : RefreshResp) : AuthToken :=
  { accessToken := r.access_token
    refreshToken :=
      match r.refresh_token with
      | some x => if x = "" then oldRT else x
      | none => oldRT
    expiresAt := now + r.expires_in * 1000
    userId := r.user_id }

/-- Embedding of `getValidToken`: populate the cache from storage when
empty; with no token, return `null`; with an expired token
(`Date.now() >= expiresAt`), refresh and persist, and on any failure of
the refresh or of the persist, clear both backends and the cache and
return `null`; with an unexpired token, return its access token.  The
function is total: no path throws. -/
def getValidToken (w : World) (s : AMState) : Option String × AMState :=
  let ct :=
    match s.currentToken with
    | some t => some t
    | none => loadToken w s
  match ct with
  | none => (none, { s with currentToken := none })
  | some t =>
    if t.expiresAt ≤ w.now then
      match w.refreshResult with
      | Except.error _ =>
        let s1 := clearToken w { s with currentToken := some t }
        (none, { s1 with currentToken := none })
      | Except.ok r =>
        let nt := tokenFromRefresh w.now t.refreshToken r
        match storeTokenE w nt { s with currentToken := some nt } with
        | Except.ok s1 => (some nt.accessToken, s1)
        | Except.error _ =>
          let s1 := clearToken w { s with currentToken := some nt }
          (none, { s1 with currentToken := none })
    else (some t.accessToken, { s with currentToken := some t })

/-- Embedding of `isAuthenticated`: the cache is non-empty; no expiry
check, no I/O. -/
def isAuthenticated (s : AMState) : Bool := s.currentToken.isSome

/-- Embedding of the revoke call inside `logout`: a fire-and-forget POST
whose failure is caught and only logged. -/
def revokeTokenOp (w : World) : Except Unit Unit :=
  if w.revokeOk then Except.ok () else Except.error ()

/-- Embedding of `logout`: attempt revoke when a token is cached (result
swallowed by the try/catch), then `clearToken` on both backends, then
drop the cache.  The function is total: no path throws to the caller. -/
def logout (w : World) (s : AMState) : AMState :=
  let _rev : Except Unit Unit :=
    match s.currentToken with
    | some _ => revokeTokenOp w
    | none => Except.ok ()
  let s1 := clearToken w s
  { s1 with currentToken := none }

/-!
The race inside `waitForAuthCallback`.  One login attempt registers a
5-minute timer, a URI handler and a cancellation listener around a
single promise.  We model the promise with an `Option Outcome` that can
only be filled once (`settleOutcome`), the timer and the URI handler
registration with liveness flags (cleared timers do not fire, disposed
registrations ignore deliveries), and each asynchronous signal as an
event processed by `waitStep`.  The processing of a delivered callback,
including the code exchange it triggers, is modelled as one atomic
step.
-/

/-- Terminal outcome of one login attempt's wait. -/
inductive Outcome where
  | completed (t : AuthToken)
  | cancelled
  | timedOut
  | providerError (e : String)
  | invalidState
  | missingCode
  | exchangeFailed
deriving DecidableEq

/-- Query parameters of a delivered redirect callback URI, each absent or
present. -/
structure CallbackQuery where
  code : Option String
  state : Option String
  error : Option String
deriving DecidableEq

/-- Decision taken by the URI handler in `waitForAuthCallback` on a
delivered callback, in source order: a truthy `error` parameter rejects
with the provider's error; then a `state` differing from the issued
nonce rejects as invalid state; then a falsy `code` rejects as missing
code; otherwise the code is exchanged and the attempt resolves with the
token or rejects as a failed exchange. -/
def callbackOutcome (now : Nat) (nonce : String) (q : CallbackQuery)
    (exch : Except Unit ExchangeResp) : Outcome :=
  if truthyOpt q.error then Outcome.providerError (q.error.getD "")
  else if q.state ≠ some nonce then Outcome.invalidState
  else if !truthyOpt q.code then Outcome.missingCode
  else
    match exch with
    | Except.ok d => Outcome.completed (tokenFromExchange now d)
    | Except.error _ => Outcome.exchangeFailed

/-- State of one pending `waitForAuthCallback` promise: the outcome (a
promise settles at most once), whether the timer is still armed, and
whether the URI handler registration is still live. -/
structure WaitState where
  outcome : Option Outcome
  timerActive : Bool
  handlerActive : Bool
deriving DecidableEq

/-- Fresh wait state right after `waitForAuthCallback` has armed the
timer and registered the handler. -/
def initWaitState : WaitState :=
  { outcome := none, timerActive := true, handlerActive := true }

/-- Settling of the promise: a second resolution is a no-op, as for a
JavaScript promise. -/
def settleOutcome (s : WaitState) (o : Outcome) : WaitState :=
  { s with outcome := some (s.outcome.getD o) }

/-- Asynchronous signals that can reach one login attempt. -/
inductive AuthEvent where
  | timerFires
  | cancelRequested
  | callbackDelivered (q : CallbackQuery) (exch : Except Unit ExchangeResp)

/-- One signal processed against the wait state, mirroring
`waitForAuthCallback`: the timer (if still armed) disposes the handler
and rejects with timeout; a cancellation clears the timer, disposes the
handler and resolves `null`; a delivered URI (if the registration is
still live) clears the timer, disposes itself and settles with
`callbackOutcome`.  A cleared timer and a disposed registration are
no-ops. -/
def waitStep (now : Nat) (nonce : String) (s : WaitState) (e : AuthEvent) : WaitState :=
  match e with
  | AuthEvent.timerFires =>
    if s.timerActive then
      settleOutcome { s with timerActive := false, handlerActive := false } Outcome.timedOut
    else s
  | AuthEvent.cancelRequested =>
    settleOutcome { s with timerActive := false, handlerActive := false } Outcome.cancelled
  | AuthEvent.callbackDelivered q exch =>
    if s.handlerActive then
      settleOutcome { s with timerActive := false, handlerActive := false }
        (callbackOutcome now nonce q exch)
    else s

/-- Processing of a whole sequence of signals. -/
def runWait (now : Nat) (nonce : String) (s : WaitState) (es : List AuthEvent) : WaitState :=
  es.foldl (waitStep now nonce) s

/-- Result of the `withProgress(waitForAuthCallback)` promise as `login`
sees it: resolution with a token, resolution with `null` (cancellation)
or rejection with an error message. -/
def outcomeToWaitResult : Outcome → Except String (Option AuthToken)
  | Outcome.completed t => Except.ok (some t)
  | Outcome.cancelled => Except.ok none
  | Outcome.timedOut => Except.error "Authentication timeout"
  | Outcome.providerError e => Except.error ("Authentication error: " ++ e)
  | Outcome.invalidState => Except.error "Invalid authentication state"
  | Outcome.missingCode => Except.error "No authorization code received"
  | Outcome.exchangeFailed => Except.error "Token exchange failed"

/-- Embedding of `login` given the settled wait result: a rejected wait
is re-thrown wrapped in a login failure; a `null` token (cancellation)
is turned into a thrown login failure as well; a token is persisted via
`storeToken` and cached. -/
def login (w : World) (s : AMState) (wait : Except String (Option AuthToken)) :
    Except String AMState :=
  match wait with
  | Except.error e => Except.error ("Login failed: Error: " ++ e)
  | Except.ok none => Except.error "Login failed: Error: Authentication was cancelled or failed"
  | Except.ok (some t) =>
    match storeTokenE w t s with
    | Except.ok s1 => Except.ok { s1 with currentToken := some t }
    | Except.error _ => Except.error "Login failed: storage write failed on both backends"

/-- Decision of whether an `Except` value is a success. -/
def exceptIsOk {ε α : Type} : Except ε α → Bool
  | Except.ok _ => true
  | Except.error _ => false

/-!
Concrete fixtures, used to instantiate the theorems below at explicit
inputs.
-/

/-- Sample token, expiring at epoch millisecond 5000. -/
def tokA : AuthToken :=
  { accessToken := "AT1", refreshToken := "RT1", expiresAt := 5000, userId := "u1" }

/-- Sample exchange response. -/
def exRespA : ExchangeResp :=
  { access_token := "AT1", refresh_token := "RT1", expires_in := 3600, user_id := "u1" }

/-- Refresh response omitting the `refresh_token` field. -/
def respNoRT : RefreshResp :=
  { access_token := "AT2", refresh_token := none, expires_in := 60, user_id := "u1" }

/-- Refresh response whose `refresh_token` field is present but empty. -/
def respEmptyRT : RefreshResp :=
  { access_token := "AT2", refresh_token := some "", expires_in := 60, user_id := "u1" }

/-- Refresh response carrying a fresh `refresh_token`. -/
def respNewRT : RefreshResp :=
  { access_token := "AT2", refresh_token := some "RT9", expires_in := 60, user_id := "u1" }

/-- Refresh response with `expires_in` equal to zero. -/
def respZeroExp : RefreshResp :=
  { access_token := "AT2", refresh_token := none, expires_in := 0, user_id := "u1" }

/-- Token that a refresh of `tokA` against `respZeroExp` at time 5000
builds and persists: already at its expiry at write time. -/
def tokStale : AuthToken :=
  { accessToken := "AT2", refreshToken := "RT1", expiresAt := 5000, userId := "u1" }

/-- Empty manager state: nothing cached, nothing stored. -/
def stEmpty : AMState := { currentToken := none, primStore := none, fallStore := none }

/-- State with `tokA` in the in-memory cache only. -/
def stCacheA : AMState := { currentToken := some tokA, primStore := none, fallStore := none }

/-- State with `tokA` serialized in the fallback store only. -/
def stFallA : AMState :=
  { currentToken := none, primStore := none, fallStore := some (serializeToken tokA) }

/-- World where every collaborator behaves and the clock reads 1000. -/
def wAllOK : World :=
  { now := 1000, primWriteOk := true, fallWriteOk := true, primReadOk := true,
    fallReadOk := true, primDeleteOk := true, fallDeleteOk := true, revokeOk := true,
    refreshResult := Except.ok respNewRT }

/-- World where the refresh request fails and the clock reads 9999 (past
the expiry of `tokA`). -/
def wRefreshFail : World :=
  { wAllOK with now := 9999, refreshResult := Except.error () }

/-- World where the primary read throws and everything else behaves. -/
def wPrimReadFail : World := { wAllOK with primReadOk := false }

/-- World where the primary backend is down for both writes and reads. -/
def wPrimBroken : World := { wAllOK with primWriteOk := false, primReadOk := false }

/-- World where only the primary write throws. -/
def wPrimWriteFail : World := { wAllOK with primWriteOk := false }

/-- World at time 5000 whose refresh succeeds with `expires_in = 0`. -/
def wZeroExp : World := { wAllOK with now := 5000, refreshResult := Except.ok respZeroExp }

/-- Callback query carrying a provider error, a mismatched state and a
valid code at once. -/
def qErrMismatch : CallbackQuery :=
  { code := some "CODE1", state := some "zzz", error := some "access_denied" }

/-- Callback query with a valid code and a state matching the nonce
"abc123". -/
def qGood : CallbackQuery :=
  { code := some "CODE1", state := some "abc123", error := none }

/-- Callback query with a valid code, no error, and a state that does not
match the nonce "abc123". -/
def qMismatchNoErr : CallbackQuery :=
  { code := some "CODE1", state := some "xyz", error := none }

/-- State with `tokA` serialized in the primary store only. -/
def stPrimA : AMState :=
  { currentToken := none, primStore := some (serializeToken tokA), fallStore := none }

/-- World at time 9999 (past the expiry of `tokA`) whose refresh succeeds
with a response omitting `refresh_token`. -/
def wNoRT : World := { wAllOK with now := 9999, refreshResult := Except.ok respNoRT }

/-!
Helper lemmas: the serialize-then-parse round trip on tokens, digit by
digit and escape by escape.
-/

theorem stringMk_data (s : String) : String.mk s.data = s := rfl

theorem stripPre_append (p rest : List Char) : stripPre p (p ++ rest) = some rest := by
  induction p with
  | nil => rfl
  | cons c cs ih => simp [stripPre, ih]

theorem unesc_general (c : Char) (hq : c ≠ '"') (hb : c ≠ '\\') (tail : List Char) :
    unescString (c :: tail) = consFst c (unescString tail) := by
  rw [unescString.eq_def]
  simp [hq, hb]

theorem unesc_quote (tail : List Char) : unescString ('"' :: tail) = some ([], tail) := by
  rw [unescString.eq_def]; simp

theorem unesc_bs_quote (tail : List Char) :
    unescString ('\\' :: '"' :: tail) = consFst '"' (unescString tail) := by
  rw [unescString.eq_def]; simp

theorem unesc_bs_bs (tail : List Char) :
    unescString ('\\' :: '\\' :: tail) = consFst '\\' (unescString tail) := by
  rw [unescString.eq_def]; simp

theorem unesc_bs_b (tail : List Char) :
    unescString ('\\' :: 'b' :: tail) = consFst (Char.ofNat 8) (unescString tail) := by
  rw [unescString.eq_def]; simp

theorem unesc_bs_t (tail : List Char) :
    unescString ('\\' :: 't' :: tail) = consFst (Char.ofNat 9) (unescString tail) := by
  rw [unescString.eq_def]; simp

theorem unesc_bs_n (tail : List Char) :
    unescString ('\\' :: 'n' :: tail) = consFst (Char.ofNat 10) (unescString tail) := by
  rw [unescString.eq_def]; simp

theorem unesc_bs_f (tail : List Char) :
    unescString ('\\' :: 'f' :: tail) = consFst (Char.ofNat 12) (unescString tail) := by
  rw [unescString.eq_def]; simp

theorem unesc_bs_r (tail : List Char) :
    unescString ('\\' :: 'r' :: tail) = consFst (Char.ofNat 13) (unescString tail) := by
  rw [unescString.eq_def]; simp

theorem hexVal_hexDigitChar (a : Nat) (h : a < 16) : hexVal (hexDigitChar a) = some a := by
  interval_cases a <;> decide

theorem hexQuad_digits (a b : Nat) (ha : a < 16) (hb : b < 16) :
    hexQuad '0' '0' (hexDigitChar a) (hexDigitChar b) = some (16 * a + b) := by
  simp only [hexQuad, hexVal_hexDigitChar a ha, hexVal_hexDigitChar b hb,
    show hexVal '0' = some 0 from by decide]
  norm_num

theorem unesc_u_digits (a b : Nat) (ha : a < 16) (hb : b < 16) (tail : List Char) :
    unescString ('\\' :: 'u' :: '0' :: '0' :: hexDigitChar a :: hexDigitChar b :: tail)
      = consFst (Char.ofNat (16 * a + b)) (unescString tail) := by
  rw [unescString.eq_def]
  simp [hexQuad_digits a b ha hb]

theorem unesc_escList (s rest : List Char) :
    unescString (escList s ++ '"' :: rest) = some (s, rest) := by
  induction s with
  | nil =>
    rw [show escList [] ++ '"' :: rest = '"' :: rest from rfl, unesc_quote]
  | cons c cs ih =>
    rw [escList, List.append_assoc]
    by_cases h1 : c = '"'
    · subst h1
      rw [show escChar '"' = ['\\', '"'] from by decide,
        show (['\\', '"'] : List Char) ++ (escList cs ++ '"' :: rest)
          = '\\' :: '"' :: (escList cs ++ '"' :: rest) from rfl,
        unesc_bs_quote, ih]
      rfl
    by_cases h2 : c = '\\'
    · subst h2
      rw [show escChar '\\' = ['\\', '\\'] from by decide,
        show (['\\', '\\'] : List Char) ++ (escList cs ++ '"' :: rest)
          = '\\' :: '\\' :: (escList cs ++ '"' :: rest) from rfl,
        unesc_bs_bs, ih]
      rfl
    by_cases h3 : c = Char.ofNat 8
    · subst h3
      rw [show escChar (Char.ofNat 8) = ['\\', 'b'] from by decide,
        show (['\\', 'b'] : List Char) ++ (escList cs ++ '"' :: rest)
          = '\\' :: 'b' :: (escList cs ++ '"' :: rest) from rfl,
        unesc_bs_b, ih]
      rfl
    by_cases h4 : c = Char.ofNat 9
    · subst h4
      rw [show escChar (Char.ofNat 9) = ['\\', 't'] from by decide,
        show (['\\', 't'] : List Char) ++ (escList cs ++ '"' :: rest)
          = '\\' :: 't' :: (escList cs ++ '"' :: rest) from rfl,
        unesc_bs_t, ih]
      rfl
    by_cases h5 : c = Char.ofNat 10
    · subst h5
      rw [show escChar (Char.ofNat 10) = ['\\', 'n'] from by decide,
        show (['\\', 'n'] : List Char) ++ (escList cs ++ '"' :: rest)
          = '\\' :: 'n' :: (escList cs ++ '"' :: rest) from rfl,
        unesc_bs_n, ih]
      rfl
    by_cases h6 : c = Char.ofNat 12
    · subst h6
      rw [show escChar (Char.ofNat 12) = ['\\', 'f'] from by decide,
        show (['\\', 'f'] : List Char) ++ (escList cs ++ '"' :: rest)
          = '\\' :: 'f' :: (escList cs ++ '"' :: rest) from rfl,
        unesc_bs_f, ih]
      rfl
    by_cases h7 : c = Char.ofNat 13
    · subst h7
      rw [show escChar (Char.ofNat 13) = ['\\', 'r'] from by decide,
        show (['\\', 'r'] : List Char) ++ (escList cs ++ '"' :: rest)
          = '\\' :: 'r' :: (escList cs ++ '"' :: rest) from rfl,
        unesc_bs_r, ih]
      rfl
    by_cases h8 : c.toNat < 32
    · have hesc : escChar c
          = '\\' :: 'u' :: '0' :: '0' :: hexDigitChar (c.toNat / 16) :: hexDigitChar (c.toNat % 16) :: [] := by
        simp only [escChar, if_neg h1, if_neg h2, if_neg h3, if_neg h4, if_neg h5, if_neg h6,
          if_neg h7, if_pos h8]
      rw [hesc]
      rw [show ('\\' :: 'u' :: '0' :: '0' :: hexDigitChar (c.toNat / 16) :: hexDigitChar (c.toNat % 16) :: [])
            ++ (escList cs ++ '"' :: rest)
          = '\\' :: 'u' :: '0' :: '0' :: hexDigitChar (c.toNat / 16) :: hexDigitChar (c.toNat % 16)
            :: (escList cs ++ '"' :: rest) from rfl]
      rw [unesc_u_digits _ _ (by omega) (by omega), ih]
      have hval : 16 * (c.toNat / 16) + c.toNat % 16 = c.toNat := by omega
      rw [hval, Char.ofNat_toNat]
      rfl
    · have hesc : escChar c = [c] := by
        simp only [escChar, if_neg h1, if_neg h2, if_neg h3, if_neg h4, if_neg h5, if_neg h6,
          if_neg h7, if_neg h8]
      rw [hesc, List.singleton_append, unesc_general c h1 h2, ih]
      rfl

theorem digitChar_toNat (d : Nat) (h : d < 10) : (digitChar d).toNat = 48 + d := by
  interval_cases d <;> decide

theorem isDigitC_digitChar (d : Nat) (h : d < 10) : isDigitC (digitChar d) = true := by
  interval_cases d <;> decide

theorem natDigitsAux_stable (n : Nat) :
    ∀ f1 f2, n < f1 → n < f2 → natDigitsAux f1 n = natDigitsAux f2 n := by
  induction n using Nat.strong_induction_on with
  | _ n ih =>
    intro f1 f2 h1 h2
    obtain ⟨g1, rfl⟩ : ∃ g, f1 = g + 1 := ⟨f1 - 1, by omega⟩
    obtain ⟨g2, rfl⟩ : ∃ g, f2 = g + 1 := ⟨f2 - 1, by omega⟩
    show (if n < 10 then [digitChar n] else natDigitsAux g1 (n / 10) ++ [digitChar (n % 10)])
       = (if n < 10 then [digitChar n] else natDigitsAux g2 (n / 10) ++ [digitChar (n % 10)])
    by_cases h10 : n < 10
    · rw [if_pos h10, if_pos h10]
    · rw [if_neg h10, if_neg h10]
      have hlt : n / 10 < n := Nat.div_lt_self (by omega) (by omega)
      rw [ih (n / 10) hlt g1 g2 (by omega) (by omega)]

theorem natDigits_eq (n : Nat) :
    natDigits n = if n < 10 then [digitChar n] else natDigits (n / 10) ++ [digitChar (n % 10)] := by
  show (if n < 10 then [digitChar n] else natDigitsAux n (n / 10) ++ [digitChar (n % 10)]) = _
  by_cases h10 : n < 10
  · rw [if_pos h10, if_pos h10]
  · rw [if_neg h10, if_neg h10]
    have hlt : n / 10 < n := Nat.div_lt_self (by omega) (by omega)
    rw [natDigitsAux_stable (n / 10) n (n / 10 + 1) hlt (by omega)]
    rfl

theorem natDigits_ne_nil (n : Nat) : natDigits n ≠ [] := by
  rw [natDigits_eq]
  by_cases h : n < 10
  · rw [if_pos h]; simp
  · rw [if_neg h]; simp

theorem natDigits_all_digit (n : Nat) : ∀ c ∈ natDigits n, isDigitC c = true := by
  induction n using Nat.strong_induction_on with
  | _ n ih =>
    rw [natDigits_eq]
    by_cases h10 : n < 10
    · rw [if_pos h10]
      intro c hc
      simp at hc; subst hc
      exact isDigitC_digitChar n h10
    · rw [if_neg h10]
      intro c hc
      rcases List.mem_append.mp hc with h | h
      · exact ih (n / 10) (Nat.div_lt_self (by omega) (by omega)) c h
      · simp at h; subst h
        exact isDigitC_digitChar (n % 10) (Nat.mod_lt _ (by omega))

theorem digitsVal_append (xs ys : List Char) (acc : Nat) :
    digitsVal (xs ++ ys) acc = digitsVal ys (digitsVal xs acc) := by
  induction xs generalizing acc with
  | nil => rfl
  | cons c cs ih => simp [digitsVal, ih]

theorem digitsVal_natDigits (n : Nat) : digitsVal (natDigits n) 0 = n := by
  induction n using Nat.strong_induction_on with
  | _ n ih =>
    rw [natDigits_eq]
    by_cases h10 : n < 10
    · rw [if_pos h10]
      show 0 * 10 + ((digitChar n).toNat - 48) = n
      rw [digitChar_toNat n h10]; omega
    · rw [if_neg h10, digitsVal_append, ih (n / 10) (Nat.div_lt_self (by omega) (by omega))]
      show n / 10 * 10 + ((digitChar (n % 10)).toNat - 48) = n
      rw [digitChar_toNat (n % 10) (Nat.mod_lt _ (by omega))]
      omega

theorem takeWhile_append_all {α : Type} (p : α → Bool) (xs ys : List α)
    (h : ∀ c ∈ xs, p c = true) : (xs ++ ys).takeWhile p = xs ++ ys.takeWhile p := by
  induction xs with
  | nil => rfl
  | cons c cs ih =>
    have hc : p c = true := h c (by simp)
    simp only [List.cons_append, List.takeWhile_cons, hc, if_true]
    rw [ih fun x hx => h x (by simp [hx])]

theorem dropWhile_append_all {α : Type} (p : α → Bool) (xs ys : List α)
    (h : ∀ c ∈ xs, p c = true) : (xs ++ ys).dropWhile p = ys.dropWhile p := by
  induction xs with
  | nil => rfl
  | cons c cs ih =>
    have hc : p c = true := h c (by simp)
    simp only [List.cons_append, List.dropWhile_cons, hc, if_true]
    exact ih fun x hx => h x (by simp [hx])

theorem parseNat_natDigits (n : Nat) (c : Char) (hc : isDigitC c = false) (rest : List Char) :
    parseNatChars (natDigits n ++ c :: rest) = some (n, c :: rest) := by
  have htake : (natDigits n ++ c :: rest).takeWhile isDigitC = natDigits n := by
    rw [takeWhile_append_all isDigitC _ _ (natDigits_all_digit n)]
    simp [List.takeWhile_cons, hc]
  have hdrop : (natDigits n ++ c :: rest).dropWhile isDigitC = c :: rest := by
    rw [dropWhile_append_all isDigitC _ _ (natDigits_all_digit n)]
    simp [List.dropWhile_cons, hc]
  have hne : (natDigits n).isEmpty = false := by
    cases hnil : natDigits n with
    | nil => exact absurd hnil (natDigits_ne_nil n)
    | cons a t => rfl
  simp only [parseNatChars, htake, hdrop, hne, Bool.false_eq_true, if_false]
  rw [digitsVal_natDigits]

theorem parseNat_natDigits_comma (n : Nat) (rest : List Char) :
    parseNatChars (natDigits n ++ ',' :: rest) = some (n, ',' :: rest) :=
  parseNat_natDigits n ',' (by decide) rest

theorem stripPre_cons (c : Char) (p cs : List Char) :
    stripPre (c :: p) (c :: cs) = stripPre p cs := by
  simp [stripPre]

theorem stripPre_litU (X : List Char) :
    stripPre litU (',' :: (['"', 'u', 's', 'e', 'r', 'I', 'd', '"', ':', '"'] ++ X)) = some X := by
  rw [show (litU : List Char) = ',' :: ['"', 'u', 's', 'e', 'r', 'I', 'd', '"', ':', '"'] from rfl,
    stripPre_cons]
  exact stripPre_append _ _

theorem parseTokenChars_serialize (t : AuthToken) :
    parseTokenChars (serializeTokenChars t) = some t := by
  obtain ⟨a, r, n, u⟩ := t
  have hser : serializeTokenChars ⟨a, r, n, u⟩
      = litA ++ (escList a.data ++ '"' :: (litR ++ (escList r.data ++ '"' :: (litE
          ++ (natDigits n ++ ',' :: (['"', 'u', 's', 'e', 'r', 'I', 'd', '"', ':', '"']
            ++ (escList u.data ++ '"' :: litEnd))))))) := by
    simp only [serializeTokenChars, litU, List.append_assoc, List.cons_append]
  rw [hser]
  simp only [parseTokenChars]
  rw [stripPre_append]
  simp only [Option.bind_eq_bind, Option.bind]
  rw [unesc_escList]
  simp only [Option.bind]
  rw [stripPre_append]
  simp only [Option.bind]
  rw [unesc_escList]
  simp only [Option.bind]
  rw [stripPre_append]
  simp only [Option.bind]
  rw [parseNat_natDigits_comma]
  simp only [Option.bind]
  rw [stripPre_litU]
  simp only [Option.bind]
  rw [unesc_escList]
  simp only [Option.bind]
  simp [stringMk_data]

theorem parse_serializeToken (t : AuthToken) : parseToken (serializeToken t) = some t :=
  parseTokenChars_serialize t

theorem serializeToken_ne_empty (t : AuthToken) : serializeToken t ≠ "" := by
  intro h
  have hd : (serializeToken t).data = "".data := congrArg String.data h
  simp only [serializeToken, stringMk_data] at hd
  simp [serializeTokenChars, litA] at hd

/-!
Helper lemmas for the three-way race: a settled wait state stays
settled with the same outcome, and every signal settles the fresh
state.
-/

theorem waitStep_preserves_settled (now : Nat) (nonce : String) (s : WaitState) (e : AuthEvent)
    (o : Outcome) (h : s.outcome = some o) : (waitStep now nonce s e).outcome = some o := by
  cases e with
  | timerFires =>
    by_cases ht : s.timerActive
    · simp [waitStep, ht, settleOutcome, h]
    · simp [waitStep, ht, h]
  | cancelRequested => simp [waitStep, settleOutcome, h]
  | callbackDelivered q exch =>
    by_cases hh : s.handlerActive
    · simp [waitStep, hh, settleOutcome, h]
    · simp [waitStep, hh, h]

theorem runWait_preserves_settled (now : Nat) (nonce : String) (s : WaitState)
    (es : List AuthEvent) (o : Outcome) (h : s.outcome = some o) :
    (runWait now nonce s es).outcome = some o := by
  induction es generalizing s with
  | nil => exact h
  | cons e es ih => exact ih _ (waitStep_preserves_settled now nonce s e o h)

theorem waitStep_init_settles (now : Nat) (nonce : String) (e : AuthEvent) :
    (waitStep now nonce initWaitState e).outcome ≠ none := by
  cases e <;> simp [waitStep, initWaitState, settleOutcome]

/-!
Claim theorems.
-/

/-- C1: for every login attempt, the first arriving signal (callback
delivery, cancellation, or timer firing) settles exactly one terminal
outcome, and every signal arriving after resolution is a no-op that
leaves the outcome unchanged. -/
theorem c1_race_single_resolution (now : Nat) (nonce : String) (e : AuthEvent)
    (es : List AuthEvent) :
    (waitStep now nonce initWaitState e).outcome ≠ none ∧
    (runWait now nonce (waitStep now nonce initWaitState e) es).outcome
      = (waitStep now nonce initWaitState e).outcome := by
  refine ⟨waitStep_init_settles now nonce e, ?_⟩
  obtain ⟨o, ho⟩ : ∃ o, (waitStep now nonce initWaitState e).outcome = some o := by
    cases h : (waitStep now nonce initWaitState e).outcome with
    | none => exact absurd h (waitStep_init_settles now nonce e)
    | some o => exact ⟨o, rfl⟩
  rw [ho, runWait_preserves_settled now nonce _ es o ho]

/-- C2 counterexample: a callback whose state differs from the issued
nonce but which carries a provider error parameter fails with
ProviderError, not with InvalidState, because the handler checks the
error parameter first. -/
theorem c2_state_mismatch_counterexample :
    qErrMismatch.state ≠ some "abc123" ∧
    callbackOutcome 1000 "abc123" qErrMismatch (Except.ok exRespA)
      = Outcome.providerError "access_denied" ∧
    callbackOutcome 1000 "abc123" qErrMismatch (Except.ok exRespA) ≠ Outcome.invalidState := by
  decide

/-- C2 (amended): the attempt completes successfully only if the
callback's state equals the issued nonce, and a callback without a
truthy provider error parameter whose state differs from the nonce
fails with InvalidState even when a valid code is present; a callback
carrying a provider error fails with ProviderError regardless of
state. -/
theorem c2_state_validation (now : Nat) (nonce : String) (q : CallbackQuery)
    (exch : Except Unit ExchangeResp) :
    (∀ t, callbackOutcome now nonce q exch = Outcome.completed t → q.state = some nonce) ∧
    (truthyOpt q.error = false → q.state ≠ some nonce →
      callbackOutcome now nonce q exch = Outcome.invalidState) := by
  constructor
  · intro t h
    by_cases he : truthyOpt q.error
    · simp [callbackOutcome, he] at h
    · by_cases hs : q.state = some nonce
      · exact hs
      · simp [callbackOutcome, he, hs] at h
  · intro he hs
    simp [callbackOutcome, he, hs]

/-- Witness for C2: at the concrete nonce "abc123", a matching callback
completes and forces the state to equal the nonce, and a mismatched
error-free callback yields InvalidState. -/
theorem c2_state_validation_witness :
    qGood.state = some "abc123" ∧
    callbackOutcome 1000 "abc123" qMismatchNoErr (Except.ok exRespA) = Outcome.invalidState :=
  ⟨(c2_state_validation 1000 "abc123" qGood (Except.ok exRespA)).1
      (tokenFromExchange 1000 exRespA) (by decide),
   (c2_state_validation 1000 "abc123" qMismatchNoErr (Except.ok exRespA)).2
      (by decide) (by decide)⟩

/-- C3: when the cached (or freshly loaded) token is expired and the
refresh request fails, getValidToken returns no token without throwing,
the cache is cleared so isAuthenticated becomes false, and the
credential is deleted from each backend whose delete operation
succeeds. -/
theorem c3_refresh_failure_implicit_logout (w : World) (s : AMState) (t : AuthToken)
    (hct : s.currentToken = some t ∨ (s.currentToken = none ∧ loadToken w s = some t))
    (hexp : t.expiresAt ≤ w.now)
    (href : w.refreshResult = Except.error ()) :
    (getValidToken w s).1 = none ∧
    isAuthenticated (getValidToken w s).2 = false ∧
    (getValidToken w s).2.currentToken = none ∧
    (w.primDeleteOk = true → (getValidToken w s).2.primStore = none) ∧
    (w.fallDeleteOk = true → (getValidToken w s).2.fallStore = none) := by
  have hct' : (match s.currentToken with
      | some t' => some t'
      | none => loadToken w s) = some t := by
    rcases hct with h | ⟨h1, h2⟩
    · rw [h]
    · rw [h1]; exact h2
  simp only [getValidToken, hct', hexp, if_true, href, clearToken, isAuthenticated]
  refine ⟨by simp, by simp, by simp, fun hd => ?_, fun hd => ?_⟩ <;> simp [hd]

/-- Witness for C3: with the expired `tokA` cached, a failing refresh at
time 9999 logs the session out of memory and both backends. -/
theorem c3_refresh_failure_witness :
    stCacheA.currentToken = some tokA ∧ tokA.expiresAt ≤ wRefreshFail.now ∧
    wRefreshFail.refreshResult = Except.error () ∧
    ((getValidToken wRefreshFail stCacheA).1 = none ∧
     isAuthenticated (getValidToken wRefreshFail stCacheA).2 = false ∧
     (getValidToken wRefreshFail stCacheA).2.currentToken = none ∧
     (wRefreshFail.primDeleteOk = true →
       (getValidToken wRefreshFail stCacheA).2.primStore = none) ∧
     (wRefreshFail.fallDeleteOk = true →
       (getValidToken wRefreshFail stCacheA).2.fallStore = none)) :=
  ⟨rfl, by decide, rfl,
   c3_refresh_failure_implicit_logout wRefreshFail stCacheA tokA (Or.inl rfl) (by decide) rfl⟩

/-- C4 counterexample: a login attempt resolved by user cancellation (or
by the timeout) makes login() reject with an error rather than resolve
with "no credential obtained": waitForAuthCallback resolves null on
cancellation, and login() turns the null token into a thrown
"Authentication was cancelled or failed" error. -/
theorem c4_cancellation_raises_counterexample :
    exceptIsOk (login wAllOK stEmpty (outcomeToWaitResult Outcome.cancelled)) = false ∧
    exceptIsOk (login wAllOK stEmpty (outcomeToWaitResult Outcome.timedOut)) = false := by
  decide

/-- C4 (amended): for every login attempt that ends in user cancellation
or in the 5-minute timeout, login() rejects with an error (it never
fulfils), so the result is distinguishable from a successful login, but
the failure IS raised to the caller rather than resolved silently. -/
theorem c4_cancel_timeout_raise (w : World) (s : AMState) :
    exceptIsOk (login w s (outcomeToWaitResult Outcome.cancelled)) = false ∧
    exceptIsOk (login w s (outcomeToWaitResult Outcome.timedOut)) = false :=
  ⟨rfl, rfl⟩

/-- C5 counterexample: when the primary read throws, loadToken returns
null immediately without consulting the fallback backend, even though
the fallback holds a credential — the single try/catch wraps both
reads. -/
theorem c5_primary_read_failure_counterexample :
    wPrimReadFail.primReadOk = false ∧
    stFallA.fallStore = some (serializeToken tokA) ∧
    loadToken wPrimReadFail stFallA = none := by
  refine ⟨rfl, rfl, rfl⟩

/-- C5 (amended): the primary backend is checked first; on absence of a
value in primary the fallback is checked and the first value found is
returned; null is returned when neither backend yields a value; but on
a failure of the primary read, loadToken returns null without checking
the fallback. -/
theorem c5_load_order (w : World) (s : AMState) (t t2 : AuthToken) :
    (w.primReadOk = true → s.primStore = some (serializeToken t) → loadToken w s = some t) ∧
    (w.primReadOk = true → s.primStore = none → w.fallReadOk = true →
      s.fallStore = some (serializeToken t2) → loadToken w s = some t2) ∧
    (w.primReadOk = false → loadToken w s = none) ∧
    (w.primReadOk = true → s.primStore = none → w.fallReadOk = true → s.fallStore = none →
      loadToken w s = none) := by
  refine ⟨?_, ?_, ?_, ?_⟩
  · intro hp hps
    simp only [loadToken, hp, if_true, hps]
    rw [if_neg (serializeToken_ne_empty t)]
    exact parse_serializeToken t
  · intro hp hps hf hfs
    simp only [loadToken, hp, if_true, hps, loadFallback, hf, hfs]
    rw [if_neg (serializeToken_ne_empty t2)]
    exact parse_serializeToken t2
  · intro hp
    simp [loadToken, hp]
  · intro hp hps hf hfs
    simp [loadToken, hp, hps, loadFallback, hf, hfs]

/-- Witness for C5: a token serialized in the primary store is found, and
a token serialized only in the fallback store is found when the primary
read reports absence. -/
theorem c5_load_order_witness :
    loadToken wAllOK stPrimA = some tokA ∧ loadToken wAllOK stFallA = some tokA :=
  ⟨(c5_load_order wAllOK stPrimA tokA tokA).1 rfl rfl,
   (c5_load_order wAllOK stFallA tokA tokA).2.1 rfl rfl rfl rfl⟩

/-- C6 counterexample: a refresh response that includes the
refresh_token field with an empty-string value does not have the
server's value taken — JavaScript's `data.refresh_token || refreshToken`
treats the empty string as falsy and keeps the old refresh token. -/
theorem c6_empty_refresh_token_counterexample :
    respEmptyRT.refresh_token = some "" ∧
    (tokenFromRefresh 1000 "RT1" respEmptyRT).refreshToken = "RT1" ∧
    ("RT1" : String) ≠ "" := by
  decide

/-- C6 (amended): a successful refresh builds and persists a token with
the new access_token and new expiry; when the response omits
refresh_token or carries an empty one, the previous refresh_token is
retained; when it carries a non-empty refresh_token, the server's new
value is used. -/
theorem c6_refresh_token_retention (w : World) (s : AMState) (t : AuthToken) (r : RefreshResp)
    (hct : s.currentToken = some t) (hexp : t.expiresAt ≤ w.now)
    (href : w.refreshResult = Except.ok r) (hw : w.primWriteOk = true) :
    (getValidToken w s).1 = some r.access_token ∧
    (getValidToken w s).2.currentToken = some (tokenFromRefresh w.now t.refreshToken r) ∧
    (getValidToken w s).2.primStore
      = some (serializeToken (tokenFromRefresh w.now t.refreshToken r)) ∧
    (tokenFromRefresh w.now t.refreshToken r).accessToken = r.access_token ∧
    (tokenFromRefresh w.now t.refreshToken r).expiresAt = w.now + r.expires_in * 1000 ∧
    (r.refresh_token = none →
      (tokenFromRefresh w.now t.refreshToken r).refreshToken = t.refreshToken) ∧
    (r.refresh_token = some "" →
      (tokenFromRefresh w.now t.refreshToken r).refreshToken = t.refreshToken) ∧
    (∀ x, r.refresh_token = some x → x ≠ "" →
      (tokenFromRefresh w.now t.refreshToken r).refreshToken = x) := by
  simp only [getValidToken, hct, hexp, if_true, href, storeTokenE, hw]
  refine ⟨by simp [tokenFromRefresh], by simp [tokenFromRefresh], by simp [tokenFromRefresh],
    by simp [tokenFromRefresh], by simp [tokenFromRefresh],
    fun h => ?_, fun h => ?_, fun x h hx => ?_⟩
  · simp [tokenFromRefresh, h]
  · simp [tokenFromRefresh, h]
  · simp [tokenFromRefresh, h, hx]

/-- Witness for C6: refreshing the expired `tokA` against a response
without a refresh_token field returns the new access token and keeps
"RT1" as the refresh token. -/
theorem c6_refresh_token_retention_witness :
    tokA.expiresAt ≤ wNoRT.now ∧
    (getValidToken wNoRT stCacheA).1 = some respNoRT.access_token ∧
    (tokenFromRefresh wNoRT.now tokA.refreshToken respNoRT).refreshToken = tokA.refreshToken :=
  ⟨by decide,
   (c6_refresh_token_retention wNoRT stCacheA tokA respNoRT rfl (by decide) rfl rfl).1,
   (c6_refresh_token_retention wNoRT stCacheA tokA respNoRT rfl (by decide) rfl rfl).2.2.2.2.2.1
     rfl⟩

/-- C7 counterexample: after a failed primary write sends the token to
the fallback store, a world whose primary read also throws makes the
next loadToken return null: the fallback-written token is not found,
because a throwing primary read aborts the whole load. -/
theorem c7_fallback_unreadable_counterexample :
    storeRes wPrimBroken tokA stEmpty = stFallA ∧
    exceptIsOk (storeTokenE wPrimBroken tokA stEmpty) = true ∧
    loadToken wPrimBroken stFallA = none := by
  refine ⟨rfl, rfl, rfl⟩

/-- C7 (amended): every write attempts the primary store first and
writes to the fallback only when the primary write fails, never to
both; a token written to fallback is found on the next read provided
the primary read succeeds and reports absence. -/
theorem c7_store_fallback (w : World) (s : AMState) (t : AuthToken) :
    (w.primWriteOk = true →
      storeTokenE w t s = Except.ok { s with primStore := some (serializeToken t) }) ∧
    (w.primWriteOk = false → w.fallWriteOk = true →
      storeTokenE w t s = Except.ok { s with fallStore := some (serializeToken t) }) ∧
    (w.primWriteOk = false → w.fallWriteOk = true → w.primReadOk = true → w.fallReadOk = true →
      s.primStore = none →
      loadToken w { s with fallStore := some (serializeToken t) } = some t) := by
  refine ⟨?_, ?_, ?_⟩
  · intro h
    simp [storeTokenE, h]
  · intro h1 h2
    simp [storeTokenE, h1, h2]
  · intro h1 h2 h3 h4 h5
    simp only [loadToken, h3, if_true, h5, loadFallback, h4]
    rw [if_neg (serializeToken_ne_empty t)]
    exact parse_serializeToken t

/-- Witness for C7: with a healthy primary the write lands in primary
only; with a broken primary write it lands in fallback only and is
found by the next read. -/
theorem c7_store_fallback_witness :
    storeTokenE wAllOK tokA stEmpty = Except.ok stPrimA ∧
    storeTokenE wPrimWriteFail tokA stEmpty = Except.ok stFallA ∧
    loadToken wPrimWriteFail stFallA = some tokA :=
  ⟨(c7_store_fallback wAllOK stEmpty tokA).1 rfl,
   (c7_store_fallback wPrimWriteFail stEmpty tokA).2.1 rfl rfl,
   (c7_store_fallback wPrimWriteFail stEmpty tokA).2.2 rfl rfl rfl rfl rfl⟩

/-- C8: logout attempts credential deletion on both storage backends
independently of the revoke outcome and of each other — each backend
ends up cleared exactly when its own delete succeeds — and logout is a
total function: no error from the revoke call or from either backend
reaches the caller. -/
theorem c8_logout_clears_both (w : World) (s : AMState) :
    (logout w s).currentToken = none ∧
    (logout w s).primStore = (if w.primDeleteOk then none else s.primStore) ∧
    (logout w s).fallStore = (if w.fallDeleteOk then none else s.fallStore) :=
  ⟨rfl, rfl, rfl⟩

/-- C9 counterexample: a refresh whose response carries expires_in = 0
persists a token whose expires_at equals the current time of the write,
so the persisted expires_at is not strictly greater than the write-time
clock — the code performs no validation of expires_in. -/
theorem c9_zero_expiry_counterexample :
    (getValidToken wZeroExp stCacheA).2.primStore = some (serializeToken tokStale) ∧
    tokStale.expiresAt = wZeroExp.now ∧
    ¬ wZeroExp.now < tokStale.expiresAt := by
  refine ⟨rfl, rfl, by decide⟩

/-- C9 (amended): a token built by a successful refresh or exchange has
expires_at strictly greater than the clock value used to build it
exactly when the response's expires_in is positive; the code adds
expires_in * 1000 to Date.now() without validating it. -/
theorem c9_expiry_future_when_positive (now : Nat) (oldRT : String) (r : RefreshResp)
    (d : ExchangeResp) (hr : 0 < r.expires_in) (hd : 0 < d.expires_in) :
    now < (tokenFromRefresh now oldRT r).expiresAt ∧
    now < (tokenFromExchange now d).expiresAt := by
  constructor
  · simp only [tokenFromRefresh]
    omega
  · simp only [tokenFromExchange]
    omega

/-- Witness for C9: with expires_in of 60 (refresh) and 3600 (exchange)
seconds, the built tokens expire strictly after time 1000. -/
theorem c9_expiry_future_witness :
    0 < respNewRT.expires_in ∧ 0 < exRespA.expires_in ∧
    (1000 < (tokenFromRefresh 1000 "RT1" respNewRT).expiresAt ∧
     1000 < (tokenFromExchange 1000 exRespA).expiresAt) :=
  ⟨by decide, by decide,
   c9_expiry_future_when_positive 1000 "RT1" respNewRT exRespA (by decide) (by decide)⟩

/-- C10: the JSON serialize-then-parse round trip is the identity on
tokens, and a token stored by storeToken on either backend (primary
when its write succeeds, fallback otherwise) is returned field-for-field
equal by the next loadToken, provided the involved reads succeed and,
for the fallback case, the primary store is empty. -/
theorem c10_store_load_roundtrip (w : World) (t : AuthToken) (s : AMState) :
    parseToken (serializeToken t) = some t ∧
    (w.primWriteOk = true → w.primReadOk = true →
      loadToken w (storeRes w t s) = some t) ∧
    (w.primWriteOk = false → w.fallWriteOk = true → w.primReadOk = true → w.fallReadOk = true →
      s.primStore = none → loadToken w (storeRes w t s) = some t) := by
  refine ⟨parse_serializeToken t, ?_, ?_⟩
  · intro h1 h2
    simp only [storeRes, storeTokenE, h1, if_true]
    simp only [loadToken, h2, if_true]
    rw [if_neg (serializeToken_ne_empty t)]
    exact parse_serializeToken t
  · intro h1 h2 h3 h4 h5
    simp only [storeRes, storeTokenE, h1, h2, if_true, Bool.false_eq_true, if_false]
    simp only [loadToken, h3, if_true, h5, loadFallback, h4]
    rw [if_neg (serializeToken_ne_empty t)]
    exact parse_serializeToken t

/-- Witness for C10: storing `tokA` through a healthy primary, and
through a broken primary with healthy fallback, both round-trip to
exactly `tokA` on the next load. -/
theorem c10_store_load_roundtrip_witness :
    parseToken (serializeToken tokA) = some tokA ∧
    loadToken wAllOK (storeRes wAllOK tokA stEmpty) = some tokA ∧
    loadToken wPrimWriteFail (storeRes wPrimWriteFail tokA stEmpty) = some tokA :=
  ⟨(c10_store_load_roundtrip wAllOK tokA stEmpty).1,
   (c10_store_load_roundtrip wAllOK tokA stEmpty).2.1 rfl rfl,
   (c10_store_load_roundtrip wPrimWriteFail tokA stEmpty).2.2 rfl rfl rfl rfl rfl⟩

end CodeLock

